import Mathlib

/-!
# Verification of `mycodo/functions/difference.py`

Shallow embedding of the "Difference" custom function: on a periodic,
drift-corrected schedule (`timer_loop`), it reads the latest sample of two
measurement streams subject to per-stream staleness bounds, computes a signed
or absolute difference of the two readings, and writes the result.

Time and measurement values are modelled as rationals (`ℚ`): the properties
under study are exact algebraic statements, so `ℚ` stands in for IEEE doubles
with no rounding concerns.
-/

/-- A timestamped measurement sample.  `get_last_measurement` returns such a
pair (the source indexes it as `[0]` timestamp, `[1]` value in its debug
logging), or `None`. -/
structure Sample where
  ts : ℚ
  value : ℚ
deriving DecidableEq

/-- Python runtime values that flow through the difference computation:
numbers, and the `(timestamp, value)` tuples returned by
`get_last_measurement`. -/
inductive PyVal where
  | num : ℚ → PyVal
  | pair : PyVal → PyVal → PyVal
deriving DecidableEq

/-- A sample as the Python tuple it is at runtime. -/
def Sample.toPyVal (s : Sample) : PyVal := .pair (.num s.ts) (.num s.value)

/-- Python binary `-`: defined on numbers; applied to tuples it raises
`TypeError` (Python tuples do not support the `-` operator). -/
def pySub : PyVal → PyVal → Except String PyVal
  | .num x, .num y => .ok (.num (x - y))
  | _, _ => .error "TypeError"

/-- Python `abs`: defined on numbers; applied to a tuple it raises
`TypeError`. -/
def pyAbs : PyVal → Except String PyVal
  | .num x => .ok (.num |x|)
  | _ => .error "TypeError"

/-- The most recent (largest timestamp) sample of a stream, if any. -/
def latest_sample : List Sample → Option Sample
  | [] => none
  | s :: rest =>
    match latest_sample rest with
    | none => some s
    | some t => if t.ts ≤ s.ts then some s else some t

/-- Modelled from the spec: `get_last_measurement` lives in
`AbstractController` (`mycodo/controllers/base_controller.py`), which is not
under `src/`.  Per spec §4.2 / §6 (`fetch_latest`) and property P4: return
the most recent sample of the stream, or `none` when the stream has no sample
or the most recent sample's age exceeds `max_age` (accepted iff
`age ≤ max_age`). -/
def get_last_measurement (stream : List Sample) (max_age now : ℚ) : Option Sample :=
  match latest_sample stream with
  | none => none
  | some s => if now - s.ts ≤ max_age then some s else none

/-- The custom options of the unit (difference.py `FUNCTION_INFORMATION`),
with the two stream selectors resolved away (they only route the reads). -/
structure Config where
  period : ℚ
  measurement_max_age_a : ℚ
  measurement_max_age_b : ℚ
  difference_reverse_order : Bool
  difference_absolute : Bool
deriving DecidableEq

/-- The world one tick sees: the current time (`time.time()`) and the two
measurement streams behind `get_last_measurement`. -/
structure Env where
  now : ℚ
  streamA : List Sample
  streamB : List Sample
deriving DecidableEq

/-- The unit's only mutable state: `self.timer_loop`. -/
structure LoopState where
  timer_loop : ℚ
deriving DecidableEq

/-- `constraints_pass_positive_value` (difference.py lines 36-49): reject
`value ≤ 0` with the message "Must be a positive value", accept `value > 0`,
and pass the controller object through unchanged. -/
def constraints_pass_positive_value {α : Type} (mod_controller : α) (value : ℚ) :
    Bool × List String × α :=
  if value ≤ 0 then (false, ["Must be a positive value"], mod_controller)
  else (true, [], mod_controller)

/-- The catch-up loop `while self.timer_loop < time.time(): self.timer_loop
+= self.period` (difference.py lines 193-194), written with explicit fuel:
one unit of fuel per loop iteration. -/
def catchUpF : ℕ → ℚ → ℚ → ℚ → ℚ
  | 0, _, _, timer => timer
  | n + 1, p, now, timer => if timer < now then catchUpF n p now (timer + p) else timer

/-- The number of iterations the catch-up loop performs when `0 < p`: the
least `k` with `timer + k * p ≥ now`. -/
def fuelFor (p now timer : ℚ) : ℕ := (⌈(now - timer) / p⌉).toNat

/-- The catch-up loop itself.  For `0 < p` the fuel `fuelFor p now timer` is
enough for the loop guard to fail at the result (`catchUp_ge`), and more fuel
does not change the result (`catchUpF_fix`), so this is the while loop's
limit.  (For `p ≤ 0` the source loop would not terminate; the embedding is
only used under the configuration invariant `0 < period`, claim C7.) -/
def catchUp (p now timer : ℚ) : ℚ := catchUpF (fuelFor p now timer) p now timer

/-- The scheduler decision of one `loop()` call (difference.py lines
192-194): fire iff `timer_loop < now`, and on fire advance `timer_loop` by
whole periods until it is no longer below `now`. -/
def tick (p now timer : ℚ) : ℚ × Bool :=
  if timer < now then (catchUp p now timer, true) else (timer, false)

/-- Repeated scheduler ticks at the given sequence of times, counting the
fires. -/
def runTicks (p : ℚ) : ℚ → List ℚ → ℚ × ℕ
  | timer, [] => (timer, 0)
  | timer, now :: rest =>
    ((runTicks p (tick p now timer).1 rest).1,
      (if (tick p now timer).2 then 1 else 0) + (runTicks p (tick p now timer).1 rest).2)

/-- Lines 230-245 of `loop()`: the difference computation and the write
decision.  Faithful to the source, which subtracts the *whole* measurement
tuples (`last_measurement_a - last_measurement_b`), not their value
components, and then applies `abs`.  `.ok (some v)` models one call of
`write_influxdb_value` with value `v`; `.ok none` models "nothing written";
`.error e` models an uncaught Python exception. -/
def combine (a b : Option Sample) (reverse absolute : Bool) :
    Except String (Option PyVal) :=
  match a, b with
  | some sa, some sb =>
    match (if reverse then pySub sb.toPyVal sa.toPyVal else pySub sa.toPyVal sb.toPyVal) with
    | .error e => .error e
    | .ok d =>
      match (if absolute then pyAbs d else .ok d) with
      | .error e => .error e
      | .ok v => .ok (some v)
  | _, _ => .ok none

/-- One call of `CustomModule.loop` (difference.py lines 191-245): if
`timer_loop < time.time()`, advance `timer_loop` by whole periods (the only
state mutation), read the latest sample of each stream under its staleness
bound, and if both are present compute the difference and write it. -/
def loop (cfg : Config) (env : Env) (st : LoopState) :
    LoopState × Except String (Option PyVal) :=
  if st.timer_loop < env.now then
    (⟨catchUp cfg.period env.now st.timer_loop⟩,
      combine (get_last_measurement env.streamA cfg.measurement_max_age_a env.now)
        (get_last_measurement env.streamB cfg.measurement_max_age_b env.now)
        cfg.difference_reverse_order cfg.difference_absolute)
  else (st, .ok none)

/-- Modelled from the spec: the host run loop (`AbstractController.run`, not
under `src/`) catches every exception a tick raises at the tick boundary
(spec §7); the tick then emits nothing and the unit proceeds from the state
the tick reached. -/
def tickCaught (cfg : Config) (env : Env) (st : LoopState) :
    LoopState × Option PyVal :=
  match loop cfg env st with
  | (st2, .ok v) => (st2, v)
  | (st2, .error _) => (st2, none)

/-- The spec's end-to-end scenario configuration: period 60, max ages 360,
reverse and absolute both off. -/
def cfgS : Config := ⟨60, 360, 360, false, false⟩

/-- The spec's end-to-end scenario world at the tick at `t = 60`: stream A
has samples `(0, 5.0)` and `(55, 8.0)`, stream B has `(10, 3.0)`. -/
def envS : Env := ⟨60, [⟨0, 5⟩, ⟨55, 8⟩], [⟨10, 3⟩]⟩

/-! ## Lemmas about the catch-up loop -/

lemma catchUpF_zero (p now timer : ℚ) : catchUpF 0 p now timer = timer := rfl

lemma catchUpF_succ (n : ℕ) (p now timer : ℚ) :
    catchUpF (n + 1) p now timer =
      if timer < now then catchUpF n p now (timer + p) else timer := rfl

lemma catchUpF_phase (n : ℕ) (p now : ℚ) :
    ∀ timer : ℚ, ∃ k : ℕ, k ≤ n ∧ catchUpF n p now timer = timer + (k : ℚ) * p := by
  induction n with
  | zero => exact fun timer => ⟨0, le_refl 0, by simp [catchUpF_zero]⟩
  | succ n ih =>
    intro timer
    by_cases h : timer < now
    · obtain ⟨k, hk, he⟩ := ih (timer + p)
      refine ⟨k + 1, by omega, ?_⟩
      rw [catchUpF_succ, if_pos h, he]
      push_cast
      ring
    · exact ⟨0, by omega, by rw [catchUpF_succ, if_neg h]; simp⟩

lemma catchUpF_ge (n : ℕ) (p now : ℚ) :
    ∀ timer : ℚ, now - timer ≤ (n : ℚ) * p → now ≤ catchUpF n p now timer := by
  induction n with
  | zero =>
    intro timer h
    rw [catchUpF_zero]
    simp only [Nat.cast_zero, zero_mul] at h
    linarith
  | succ n ih =>
    intro timer h
    rw [catchUpF_succ]
    by_cases hlt : timer < now
    · rw [if_pos hlt]
      apply ih
      push_cast at h ⊢
      linarith
    · rw [if_neg hlt]
      linarith [not_lt.mp hlt]

lemma catchUpF_lt (n : ℕ) (p now : ℚ) :
    ∀ timer : ℚ, timer < now + p → catchUpF n p now timer < now + p := by
  induction n with
  | zero => intro timer h; rw [catchUpF_zero]; exact h
  | succ n ih =>
    intro timer h
    rw [catchUpF_succ]
    by_cases hlt : timer < now
    · rw [if_pos hlt]
      exact ih (timer + p) (by linarith)
    · rw [if_neg hlt]
      exact h

lemma catchUpF_fix (n : ℕ) (p now : ℚ) :
    ∀ timer : ℚ, now - timer ≤ (n : ℚ) * p →
      catchUpF (n + 1) p now timer = catchUpF n p now timer := by
  induction n with
  | zero =>
    intro timer h
    simp only [Nat.cast_zero, zero_mul] at h
    have hnl : ¬ timer < now := not_lt.mpr (by linarith)
    rw [catchUpF_succ, if_neg hnl, catchUpF_zero]
  | succ n ih =>
    intro timer h
    by_cases hlt : timer < now
    · rw [catchUpF_succ (n + 1) p now timer, if_pos hlt,
        catchUpF_succ n p now timer, if_pos hlt]
      apply ih
      push_cast at h ⊢
      linarith
    · rw [catchUpF_succ (n + 1) p now timer, if_neg hlt,
        catchUpF_succ n p now timer, if_neg hlt]

lemma fuelFor_spec (p now timer : ℚ) (hp : 0 < p) :
    now - timer ≤ (fuelFor p now timer : ℚ) * p := by
  have h1 : (now - timer) / p ≤ ((⌈(now - timer) / p⌉ : ℤ) : ℚ) := Int.le_ceil _
  have h2 : ((⌈(now - timer) / p⌉ : ℤ) : ℚ) ≤ ((fuelFor p now timer : ℕ) : ℚ) := by
    unfold fuelFor
    exact_mod_cast Int.self_le_toNat _
  have h3 := h1.trans h2
  rw [div_le_iff₀ hp] at h3
  exact h3

lemma catchUp_ge (p now timer : ℚ) (hp : 0 < p) : now ≤ catchUp p now timer :=
  catchUpF_ge (fuelFor p now timer) p now timer (fuelFor_spec p now timer hp)

lemma catchUp_phase (p now timer : ℚ) :
    ∃ k : ℕ, catchUp p now timer = timer + (k : ℚ) * p := by
  obtain ⟨k, _, hk⟩ := catchUpF_phase (fuelFor p now timer) p now timer
  exact ⟨k, hk⟩

lemma catchUp_lt (p now timer : ℚ) (h : timer < now + p) : catchUp p now timer < now + p :=
  catchUpF_lt (fuelFor p now timer) p now timer h

/-! ## Lemmas about the scheduler decision -/

lemma tick_no_fire (p now timer : ℚ) (h : now ≤ timer) : tick p now timer = (timer, false) := by
  unfold tick
  rw [if_neg (not_lt.mpr h)]

lemma tick_fire_eq (p now timer : ℚ) (h : timer < now) :
    tick p now timer = (catchUp p now timer, true) := by
  unfold tick
  rw [if_pos h]

lemma tick_fire (p now timer : ℚ) (hp : 0 < p) (h : timer < now) :
    (tick p now timer).2 = true ∧ now ≤ (tick p now timer).1 ∧
      (tick p now timer).1 < now + p ∧
      ∃ k : ℕ, 1 ≤ k ∧ (tick p now timer).1 = timer + (k : ℚ) * p := by
  rw [tick_fire_eq p now timer h]
  refine ⟨rfl, catchUp_ge p now timer hp, catchUp_lt p now timer (by linarith), ?_⟩
  obtain ⟨k, hk⟩ := catchUp_phase p now timer
  refine ⟨k, ?_, hk⟩
  by_contra hk0
  have hk0 : k = 0 := by omega
  rw [hk0] at hk
  simp at hk
  have := catchUp_ge p now timer hp
  rw [hk] at this
  linarith

lemma runTicks_nil (p timer : ℚ) : runTicks p timer [] = (timer, 0) := rfl

lemma runTicks_cons (p timer now : ℚ) (rest : List ℚ) :
    runTicks p timer (now :: rest) =
      ((runTicks p (tick p now timer).1 rest).1,
        (if (tick p now timer).2 then 1 else 0) +
          (runTicks p (tick p now timer).1 rest).2) := rfl

lemma runTicks_phase (p : ℚ) (hp : 0 < p) (ts : List ℚ) :
    ∀ timer : ℚ, ∃ k : ℕ,
      (runTicks p timer ts).1 = timer + (k : ℚ) * p ∧ (runTicks p timer ts).2 ≤ k := by
  induction ts with
  | nil => intro timer; exact ⟨0, by simp [runTicks_nil], by simp [runTicks_nil]⟩
  | cons now rest ih =>
    intro timer
    by_cases h : timer < now
    · have hf := tick_fire p now timer hp h
      obtain ⟨k1, hk1, he1⟩ := hf.2.2.2
      obtain ⟨k2, he2, hc2⟩ := ih (tick p now timer).1
      refine ⟨k1 + k2, ?_, ?_⟩
      · rw [runTicks_cons]
        show (runTicks p (tick p now timer).1 rest).1 = timer + ((k1 + k2 : ℕ) : ℚ) * p
        rw [he2, he1]
        push_cast
        ring
      · rw [runTicks_cons]
        show (if (tick p now timer).2 then 1 else 0) +
          (runTicks p (tick p now timer).1 rest).2 ≤ k1 + k2
        rw [hf.1]
        simp only [if_pos]
        omega
    · rw [runTicks_cons, tick_no_fire p now timer (not_lt.mp h)]
      obtain ⟨k, he, hc⟩ := ih timer
      exact ⟨k, by simpa using he, by simpa using hc⟩

lemma runTicks_lt (p N : ℚ) (hp : 0 < p) :
    ∀ ts : List ℚ, (∀ t ∈ ts, t ≤ N) →
      ∀ timer : ℚ, timer < N + p → (runTicks p timer ts).1 < N + p := by
  intro ts
  induction ts with
  | nil => intro _ timer h0; simpa [runTicks_nil] using h0
  | cons now rest ih =>
    intro hts timer h0
    have hnow : now ≤ N := hts now (by simp)
    have hrest : ∀ t ∈ rest, t ≤ N := fun t ht => hts t (by simp [ht])
    rw [runTicks_cons]
    show (runTicks p (tick p now timer).1 rest).1 < N + p
    apply ih hrest
    by_cases h : timer < now
    · rw [tick_fire_eq p now timer h]
      have := catchUp_lt p now timer (by linarith)
      calc catchUp p now timer < now + p := this
      _ ≤ N + p := by linarith
    · rw [tick_no_fire p now timer (not_lt.mp h)]
      exact h0

/-- Helper for concrete scheduler evaluations: the catch-up loop from a
deadline half a period behind `now` runs exactly once. -/
lemma ceil_half : (⌈(1 : ℚ) / 2⌉ : ℤ) = 1 := by
  norm_num [Int.ceil_eq_iff]

/-- Helper for the difference claims: `combine` with an absent first sample
yields "nothing written", whatever the other sample and the flags. -/
lemma combine_none_left (b : Option Sample) (r s : Bool) :
    combine none b r s = Except.ok none := by
  cases b <;> rfl

/-- Helper for the difference claims: `combine` with an absent second sample
yields "nothing written", whatever the other sample and the flags. -/
lemma combine_none_right (a : Option Sample) (r s : Bool) :
    combine a none r s = Except.ok none := by
  cases a <;> rfl

/-! ## The claims -/

/-- Claim C1 (code bug): the spec's difference contract — `combine` of two
present samples returns the numeric difference of their *value* components —
fails on the code.  The source subtracts the whole `(timestamp, value)`
tuples returned by `get_last_measurement` (lines 231 and 233:
`last_measurement_b - last_measurement_a` / `last_measurement_a -
last_measurement_b`), which raises `TypeError` for every flag combination
instead of producing `8 - 3 = 5` (or `3 - 8`, `|8 - 3|`, `|3 - 8|`). -/
theorem C1_combine_raises :
    combine (some ⟨55, 8⟩) (some ⟨10, 3⟩) false false = Except.error "TypeError" ∧
    combine (some ⟨55, 8⟩) (some ⟨10, 3⟩) true false = Except.error "TypeError" ∧
    combine (some ⟨55, 8⟩) (some ⟨10, 3⟩) false true = Except.error "TypeError" ∧
    combine (some ⟨55, 8⟩) (some ⟨10, 3⟩) true true = Except.error "TypeError" :=
  ⟨rfl, rfl, rfl, rfl⟩

/-- Claim C2 (code bug): in the spec's end-to-end scenario (period 60,
max ages 360, tick at `t = 60`, latest A sample `(55, 8.0)`, latest B sample
`(10, 3.0)`, reverse and absolute off) both samples are indeed accepted as
fresh, but the tick raises `TypeError` on the tuple subtraction and emits
nothing, instead of emitting `5.0`. -/
theorem C2_scenario_raises :
    get_last_measurement envS.streamA cfgS.measurement_max_age_a envS.now = some ⟨55, 8⟩ ∧
    get_last_measurement envS.streamB cfgS.measurement_max_age_b envS.now = some ⟨10, 3⟩ ∧
    loop cfgS envS ⟨0⟩ = (⟨60⟩, Except.error "TypeError") := by
  norm_num [cfgS, envS, loop, get_last_measurement, latest_sample, combine,
    Sample.toPyVal, pySub, catchUp, fuelFor, catchUpF]

/-- Claim C3 (confirmed, modelled from the spec): no exception propagates out
of a tick.  The host run loop (`AbstractController.run`, outside `src/`)
catches every exception at the tick boundary: whenever `loop` raises, the
caught tick yields the state `loop` reached and emits nothing, so the unit
can run its next scheduled tick. -/
theorem C3_tick_catches (cfg : Config) (env : Env) (st : LoopState) (e : String)
    (h : (loop cfg env st).2 = Except.error e) :
    tickCaught cfg env st = ((loop cfg env st).1, none) := by
  unfold tickCaught
  rcases hl : loop cfg env st with ⟨st2, r⟩
  rw [hl] at h
  rcases r with e2 | v
  · rfl
  · simp at h

/-- Witness for C3: the spec's scenario tick raises `TypeError`, and the
caught tick ends in the advanced state having emitted nothing. -/
theorem C3_tick_catches_witness :
    (loop cfgS envS ⟨0⟩).2 = Except.error "TypeError" ∧
    tickCaught cfgS envS ⟨0⟩ = ((loop cfgS envS ⟨0⟩).1, none) := by
  have hloop : (loop cfgS envS ⟨0⟩).2 = Except.error "TypeError" := by
    norm_num [cfgS, envS, loop, get_last_measurement, latest_sample, combine,
      Sample.toPyVal, pySub, catchUp, fuelFor, catchUpF]
  exact ⟨hloop, C3_tick_catches cfgS envS ⟨0⟩ "TypeError" hloop⟩

/-- Claim C4 (counterexample): the number of fires is *not* `⌊T / P⌋`
regardless of distribution.  With period 60 and deadline starting at 0, ticks
at times 30 and 90 (span `T = 90`, `⌊90 / 60⌋ = 1`) produce 2 fires and final
deadline `120 ≠ 0 + 1 * 60`; a single tick at time 120 (span `T = 120`,
`⌊120 / 60⌋ = 2`) produces only 1 fire. -/
theorem C4_counterexample :
    runTicks 60 0 [30, 90] = (120, 2) ∧ (runTicks 60 0 [30, 90]).2 ≠ 1 ∧
    (runTicks 60 0 [30, 90]).1 ≠ 0 + (1 : ℚ) * 60 ∧
    runTicks 60 0 [120] = (120, 1) ∧ (runTicks 60 0 [120]).2 ≠ 2 := by
  norm_num [runTicks, tick, catchUp, fuelFor, catchUpF, ceil_half]

/-- Claim C4 (amended): across any sequence of ticks bounded by time `N`,
the deadline is advanced by a whole number of periods (phase preserved), that
number is at least the number of fires, and the fires never outnumber
`(N - timer₀) / P + 1` — but the exact count `⌊T / P⌋` depends on how the
ticks were distributed (see the counterexample). -/
theorem C4_amended (p timer0 N : ℚ) (ts : List ℚ) (hp : 0 < p)
    (h0 : timer0 ≤ N) (hts : ∀ t ∈ ts, t ≤ N) :
    ∃ k : ℕ, (runTicks p timer0 ts).1 = timer0 + (k : ℚ) * p ∧
      (runTicks p timer0 ts).2 ≤ k ∧
      ((runTicks p timer0 ts).2 : ℚ) * p < N - timer0 + p := by
  obtain ⟨k, hk1, hk2⟩ := runTicks_phase p hp ts timer0
  have hb := runTicks_lt p N hp ts hts timer0 (by linarith)
  refine ⟨k, hk1, hk2, ?_⟩
  have hkp : (k : ℚ) * p < N - timer0 + p := by
    rw [hk1] at hb
    linarith
  have hmono : ((runTicks p timer0 ts).2 : ℚ) * p ≤ (k : ℚ) * p := by
    apply mul_le_mul_of_nonneg_right _ hp.le
    exact_mod_cast hk2
  linarith

/-- Witness for the amended C4, at the counterexample's own run. -/
theorem C4_amended_witness :
    (0 : ℚ) < 60 ∧
    ∃ k : ℕ, (runTicks 60 0 [30, 90]).1 = 0 + (k : ℚ) * 60 ∧
      (runTicks 60 0 [30, 90]).2 ≤ k ∧
      ((runTicks 60 0 [30, 90]).2 : ℚ) * 60 < 90 - 0 + 60 :=
  ⟨by norm_num,
    C4_amended 60 0 90 [30, 90] (by norm_num) (by norm_num)
      (by intro t ht; fin_cases ht <;> norm_num)⟩

/-- Claim C5 (counterexample): the fire condition is strict.  At
`now = next_fire` (here both 10) the code does **not** fire, though the claim
says a tick with `now = next_fire` fires; and when it does fire the catch-up
loop stops as soon as `next_fire ≥ now`, so the new deadline can *equal*
`now` (fire at `now = 120` from deadline 0 ends with deadline 120), not
exceed it. -/
theorem C5_counterexample :
    tick 60 10 10 = (10, false) ∧ tick 60 120 0 = (120, true) := by
  norm_num [tick, catchUp, fuelFor, catchUpF]

/-- Claim C5 (amended): if `now ≤ next_fire` the scheduler does not fire and
`next_fire` is unchanged; if `next_fire < now` (strictly) it advances
`next_fire` by one period repeatedly while `next_fire < now`, so that
afterwards `now ≤ next_fire < now + period`, and fires. -/
theorem C5_amended (p now timer : ℚ) (hp : 0 < p) :
    (now ≤ timer → tick p now timer = (timer, false)) ∧
    (timer < now → (tick p now timer).2 = true ∧ now ≤ (tick p now timer).1 ∧
      (tick p now timer).1 < now + p ∧
      ∃ k : ℕ, 1 ≤ k ∧ (tick p now timer).1 = timer + (k : ℚ) * p) :=
  ⟨fun h => tick_no_fire p now timer h, fun h => tick_fire p now timer hp h⟩

/-- Witness for the amended C5: a fire at `now = 10` from deadline 0 with
period 60. -/
theorem C5_amended_witness :
    (0 : ℚ) < 60 ∧ (0 : ℚ) < 10 ∧
    ((tick 60 10 0).2 = true ∧ (10 : ℚ) ≤ (tick 60 10 0).1 ∧
      (tick 60 10 0).1 < 10 + 60 ∧
      ∃ k : ℕ, 1 ≤ k ∧ (tick 60 10 0).1 = 0 + (k : ℚ) * 60) :=
  ⟨by norm_num, by norm_num, (C5_amended 60 10 0 (by norm_num)).2 (by norm_num)⟩

/-- Claim C6 (confirmed): absence propagates and suppresses emission.  If
either sample is absent, `combine` yields "nothing written" for every flag
combination, and a tick whose A-read or B-read comes back `none` writes
nothing (and raises nothing). -/
theorem C6_absence :
    (∀ (x : Option Sample) (r s : Bool),
      combine none x r s = Except.ok none ∧ combine x none r s = Except.ok none) ∧
    (∀ (cfg : Config) (env : Env) (st : LoopState),
      (get_last_measurement env.streamA cfg.measurement_max_age_a env.now = none ∨
       get_last_measurement env.streamB cfg.measurement_max_age_b env.now = none) →
      (loop cfg env st).2 = Except.ok none) := by
  constructor
  · exact fun x r s => ⟨combine_none_left x r s, combine_none_right x r s⟩
  · intro cfg env st h
    unfold loop
    by_cases hfire : st.timer_loop < env.now
    · rw [if_pos hfire]
      rcases h with h | h
      · show combine _ _ _ _ = Except.ok none
        rw [h]
        exact combine_none_left _ _ _
      · show combine _ _ _ _ = Except.ok none
        rw [h]
        exact combine_none_right _ _ _
    · rw [if_neg hfire]

/-- Witness for C6: a tick at `t = 60` whose A-stream is empty writes
nothing. -/
theorem C6_absence_witness :
    get_last_measurement ([] : List Sample) 360 60 = none ∧
    (loop ⟨60, 360, 360, false, false⟩ ⟨60, [], [⟨10, 3⟩]⟩ ⟨0⟩).2 = Except.ok none := by
  have hA : get_last_measurement ([] : List Sample) 360 60 = none := rfl
  exact ⟨hA, C6_absence.2 ⟨60, 360, 360, false, false⟩ ⟨60, [], [⟨10, 3⟩]⟩ ⟨0⟩ (Or.inl hA)⟩

/-- Claim C7 (confirmed): `constraints_pass_positive_value` accepts every
period `> 0` with no errors and rejects every period `≤ 0`, reporting failure
with the message "Must be a positive value" (so a running unit has
`period > 0`; that a rejected configuration never starts is the host
framework's contract, spec §7 ConfigError). -/
theorem C7_validator {α : Type} (m : α) (v : ℚ) :
    (0 < v → constraints_pass_positive_value m v = (true, [], m)) ∧
    (v ≤ 0 → constraints_pass_positive_value m v = (false, ["Must be a positive value"], m)) := by
  constructor
  · intro h
    unfold constraints_pass_positive_value
    rw [if_neg (not_le.mpr h)]
  · intro h
    unfold constraints_pass_positive_value
    rw [if_pos h]

/-- Witness for C7: the default period 60 passes; `-3` and every other
non-positive value is rejected with the error message. -/
theorem C7_validator_witness :
    (0 : ℚ) < 60 ∧ (-3 : ℚ) ≤ 0 ∧
    constraints_pass_positive_value (0 : ℕ) (60 : ℚ) = (true, [], 0) ∧
    constraints_pass_positive_value (0 : ℕ) (-3 : ℚ) =
      (false, ["Must be a positive value"], 0) :=
  ⟨by norm_num, by norm_num,
    (C7_validator (0 : ℕ) 60).1 (by norm_num),
    (C7_validator (0 : ℕ) (-3)).2 (by norm_num)⟩

/-- Claim C8 (code bug): with `absolute = true` the result should be
`|a - b|` independently of `reverse`; on the code the subtraction of the
whole measurement tuples raises `TypeError` before `abs` is ever applied
(spec scenario values: A value 2.0, B value 9.0, expected `7.0`). -/
theorem C8_absolute_raises :
    combine (some ⟨0, 2⟩) (some ⟨0, 9⟩) true true = Except.error "TypeError" ∧
    combine (some ⟨0, 2⟩) (some ⟨0, 9⟩) false true = Except.error "TypeError" :=
  ⟨rfl, rfl⟩

/-- Claim C9 (confirmed): for any positive period the catch-up loop
terminates after finitely many iterations — there is an `n` with the loop
result `timer + n * period` at which the loop guard `timer_loop < now`
fails. -/
theorem C9_termination (p now timer : ℚ) (hp : 0 < p) :
    ∃ n : ℕ, catchUp p now timer = timer + (n : ℚ) * p ∧
      ¬ (timer + (n : ℚ) * p < now) := by
  obtain ⟨n, hn⟩ := catchUp_phase p now timer
  refine ⟨n, hn, ?_⟩
  rw [← hn]
  exact not_lt.mpr (catchUp_ge p now timer hp)

/-- Witness for C9: period 60, deadline 0, now 10 — one iteration lands on
60 and the guard fails. -/
theorem C9_termination_witness :
    (0 : ℚ) < 60 ∧
    ∃ n : ℕ, catchUp 60 10 0 = 0 + (n : ℚ) * 60 ∧ ¬ ((0 : ℚ) + (n : ℚ) * 60 < 10) :=
  ⟨by norm_num, C9_termination 60 10 0 (by norm_num)⟩

/-- Claim C10 (counterexample): on a fire the deadline is *not* always
advanced strictly past the current time — it is advanced to the least
deadline `≥ now`, which can equal `now`.  Firing at `now = 240` from
deadline 60 with period 60 ends with deadline exactly 240. -/
theorem C10_counterexample :
    loop ⟨60, 360, 360, false, false⟩ ⟨240, [], []⟩ ⟨60⟩ = (⟨240⟩, Except.ok none) ∧
    ¬ ((240 : ℚ) < (loop ⟨60, 360, 360, false, false⟩ ⟨240, [], []⟩ ⟨60⟩).1.timer_loop) := by
  norm_num [loop, get_last_measurement, latest_sample, combine, catchUp, fuelFor, catchUpF]

/-- Claim C10 (amended): the deadline update of a tick is unconditional on
the reads — the post-state is the same function of (period, now, prior
deadline) whatever the streams contain; on a fire the new deadline is at
least `now`; and since firing requires `now` strictly above the deadline, no
tick at a time up to the new deadline fires again, whatever the inputs did. -/
theorem C10_amended (cfg : Config) (env env2 : Env) (st : LoopState)
    (hnow : env.now = env2.now) (hp : 0 < cfg.period) :
    (loop cfg env st).1 = (loop cfg env2 st).1 ∧
    (st.timer_loop < env.now → env.now ≤ (loop cfg env st).1.timer_loop) ∧
    (∀ t2 : ℚ, t2 ≤ (loop cfg env st).1.timer_loop →
      tick cfg.period t2 (loop cfg env st).1.timer_loop =
        ((loop cfg env st).1.timer_loop, false)) := by
  refine ⟨?_, ?_, ?_⟩
  · unfold loop
    rw [← hnow]
    by_cases h : st.timer_loop < env.now
    · rw [if_pos h, if_pos h]
    · rw [if_neg h, if_neg h]
  · intro h
    unfold loop
    rw [if_pos h]
    simpa using catchUp_ge cfg.period env.now st.timer_loop hp
  · intro t2 ht2
    exact tick_no_fire cfg.period t2 (loop cfg env st).1.timer_loop ht2

/-- Witness for the amended C10: the scenario tick (which raises on the
subtraction) still advances the deadline to 60, the same state an empty
world would produce. -/
theorem C10_amended_witness :
    (60 : ℚ) = 60 ∧ (0 : ℚ) < 60 ∧
    (loop cfgS envS ⟨0⟩).1 = (loop cfgS ⟨60, [], []⟩ ⟨0⟩).1 ∧
    (60 : ℚ) ≤ (loop cfgS envS ⟨0⟩).1.timer_loop := by
  have h := C10_amended cfgS envS ⟨60, [], []⟩ ⟨0⟩ rfl (by norm_num [cfgS])
  exact ⟨rfl, by norm_num, h.1, h.2.1 (by norm_num [envS])⟩
